import Mathlib

/-!
Shallow embedding of `src/journaltxt/parser.py` (the Journal.TXT parser).

The parser splits raw text on `---` delimiter lines (Python:
`re.sub(r"^---[ ]*\n?", "", text, count=1)` followed by
`re.split(r"^---[ ]*\n?", text, flags=re.MULTILINE)`), pairs the fragments
into (metadata, content) items, decodes each metadata block with
`yaml.safe_load`, resolves a calendar date per entry (inheriting year and
month from the previous entry's resolved date), and returns the list of
(metadata, content) pairs.

Python strings are modelled as `List Char` (with `String` at the API
boundary), Python `dict` as an insertion-ordered association list,
Python exceptions as the `PyExn` error type of an `Except` result.
`datetime.date` is modelled as `PyDate` with the CPython validity check
(years 1..9999, proleptic Gregorian calendar).
-/

/-- Model of `datetime.date`: a (year, month, day) triple. CPython only
constructs values satisfying `validDate` (see below); the embedding checks
that condition at the construction site `makeDate`. -/
structure PyDate where
  year : Int
  month : Int
  day : Int
deriving Repr, DecidableEq

/-- Model of the values produced by `yaml.safe_load` restricted to the flat
subset of YAML that this development needs (scalars, flat block sequences,
flat block mappings), plus `date` for the `datetime.date` objects the parser
itself stores into the metadata dict. -/
inductive Yaml where
  | str (s : String)
  | int (n : Int)
  | bool (b : Bool)
  | null
  | seq (xs : List Yaml)
  | map (m : List (String × Yaml))
  | date (d : PyDate)
deriving Repr

/-- Model of a Python `dict[str, Any]`: an insertion-ordered association
list (keys unique in every dict the code actually builds). -/
abbrev PyDict := List (String × Yaml)

/-- Model of the Python exceptions that can escape `Parser.parse`:
`ParserError` (the parser's own exception class, here with one constructor
per raise site, each carrying the 1-based entry ordinal of the message),
and the built-in `TypeError` / `AttributeError` that are not raised by the
parser itself but escape from library calls. -/
inductive ParseErr where
  /-- raised as `ParserError(f"Invalid YAML in entry {i+1}: {e}")` -/
  | invalidYaml (ordinal : Nat)
  /-- raised as `ParserError(f"Entry {i+1}: year entry required for first entry")` -/
  | yearRequired (ordinal : Nat)
  /-- raised as `ParserError(f"Entry {i+1}: day entry required")` -/
  | dayRequired (ordinal : Nat)
  /-- raised as `ParserError(f"Entry {i+1}: invalid day format: {day}")` -/
  | invalidDayFormat (ordinal : Nat) (day : String)
  /-- raised as `ParserError(f"Entry {i+1}: month entry required for first entry")` -/
  | monthRequired (ordinal : Nat)
  /-- raised as `ParserError(f"Entry {i+1}: invalid month format: {month}")` -/
  | invalidMonthFormat (ordinal : Nat) (month : String)
  /-- raised as `ParserError(f"Entry {i+1}: invalid date ({year}-{month}-{day}): {e}")` -/
  | invalidDate (ordinal : Nat) (year month day : Int)
deriving Repr, DecidableEq

inductive PyExn where
  /-- an instance of the `ParserError` exception class -/
  | parserError (e : ParseErr)
  /-- built-in `TypeError` (e.g. `list.pop("year", None)`, or `date()`
  applied to a non-integer argument); carries no entry ordinal -/
  | typeError
  /-- built-in `AttributeError` (e.g. `"hello".pop`); carries no entry
  ordinal -/
  | attributeError
deriving Repr, DecidableEq

/-- Whether an escaping exception is an instance of `ParserError`. -/
def PyExn.isParserError : PyExn → Bool
  | .parserError _ => true
  | _ => false

/-! ### Python dict operations -/

/-- Model of `d[k]` / `d.get(k)`: first binding of `k` (the only one, for dicts the
code builds). -/
def dictGet (m : PyDict) (k : String) : Option Yaml :=
  match m with
  | [] => none
  | (k', v) :: rest => if k' = k then some v else dictGet rest k

/-- The dict after `d.pop(k, None)`: every binding of `k` removed. -/
def dictRemove (m : PyDict) (k : String) : PyDict :=
  match m with
  | [] => []
  | (k', v) :: rest =>
    if k' = k then dictRemove rest k else (k', v) :: dictRemove rest k

/-- Model of `d[k] = v`: replace the value in place if the key is present (keeping
its position), otherwise append the new binding at the end. -/
def dictSet (m : PyDict) (k : String) (v : Yaml) : PyDict :=
  match m with
  | [] => [(k, v)]
  | (k', v') :: rest =>
    if k' = k then (k, v) :: rest else (k', v') :: dictSet rest k v

/-! ### Character classes and small string helpers -/

/-- Python `str.strip()` whitespace (ASCII subset relevant here). -/
def pyIsSpace (c : Char) : Bool :=
  c = ' ' || c = '\t' || c = '\n' || c = '\r' || c = '\x0b' || c = '\x0c'

/-- Whether `s.strip()` is falsy, i.e. the text has no non-whitespace character. -/
def isBlank (cs : List Char) : Bool := cs.all pyIsSpace

def dropLeadingSpace (cs : List Char) : List Char :=
  match cs with
  | c :: rest => if pyIsSpace c then dropLeadingSpace rest else cs
  | [] => []

/-- Python `str.strip()`: drop leading and trailing whitespace. -/
def pyStrip (cs : List Char) : List Char :=
  (dropLeadingSpace (dropLeadingSpace cs.reverse).reverse)

def isDigitChar (c : Char) : Bool := '0' ≤ c && c ≤ '9'

def digitVal (c : Char) : Nat := c.toNat - '0'.toNat

def digitsToNat (ds : List Char) : Nat :=
  ds.foldl (fun acc c => acc * 10 + digitVal c) 0

/-- Model of `re.findall(r"\d+", s)`: the maximal runs of decimal digits,
in order. -/
def findallDigits (cs : List Char) : List (List Char) :=
  match cs with
  | [] => []
  | c :: rest =>
    if isDigitChar c then
      match findallDigits rest with
      | run :: runs =>
        match rest with
        | r :: _ => if isDigitChar r then (c :: run) :: runs else [c] :: run :: runs
        | [] => [c] :: runs
      | [] => [[c]]
    else findallDigits rest

/-- Python `int(s)` on a digit string (no sign: `re.findall(r"\d+", ...)`
runs are pure digits). -/
def strToInt (ds : List Char) : Int := (digitsToNat ds : Int)

/-- ASCII lowercase, for the case-insensitive month-name matching that
`datetime.strptime` performs. -/
def lowerChar (c : Char) : Char :=
  if 'A' ≤ c && c ≤ 'Z' then Char.ofNat (c.toNat + 32) else c

def lowerChars (cs : List Char) : List Char := cs.map lowerChar

/-! ### The delimiter splitter

`re.split(r"^---[ ]*\n?", text, flags=re.MULTILINE)` as a character-level
state machine.  A match starts wherever, at the start of the string or right
after a newline, the text begins with three hyphens; the match consumes the
hyphens, any following spaces (only `' '`, per the `[ ]` class) and at most
one newline.  There is no `$` anchor: any remaining characters of the line
begin the next fragment. -/

inductive SplitState where
  /-- at a line start, nothing pending -/
  | s0
  /-- at a line start, one hyphen consumed and pending -/
  | s1
  /-- at a line start, two hyphens consumed and pending -/
  | s2
  /-- inside a delimiter match, after its three hyphens -/
  | sD
  /-- in the middle of a line -/
  | sN
deriving Repr, DecidableEq

/-- One fragment list per remaining input; `acc` holds the current fragment
reversed. -/
def goSplit (cs : List Char) (st : SplitState) (acc : List Char) :
    List (List Char) :=
  match cs, st with
  | [], .s1 => [('-' :: acc).reverse]
  | [], .s2 => [('-' :: '-' :: acc).reverse]
  | [], _ => [acc.reverse]
  | c :: rest, .s0 =>
    if c = '-' then goSplit rest .s1 acc
    else if c = '\n' then goSplit rest .s0 (c :: acc)
    else goSplit rest .sN (c :: acc)
  | c :: rest, .s1 =>
    if c = '-' then goSplit rest .s2 acc
    else if c = '\n' then goSplit rest .s0 (c :: '-' :: acc)
    else goSplit rest .sN (c :: '-' :: acc)
  | c :: rest, .s2 =>
    if c = '-' then acc.reverse :: goSplit rest .sD []
    else if c = '\n' then goSplit rest .s0 (c :: '-' :: '-' :: acc)
    else goSplit rest .sN (c :: '-' :: '-' :: acc)
  | c :: rest, .sD =>
    if c = ' ' then goSplit rest .sD acc
    else if c = '\n' then goSplit rest .s0 acc
    else goSplit rest .sN (c :: acc)
  | c :: rest, .sN =>
    if c = '\n' then goSplit rest .s0 (c :: acc)
    else goSplit rest .sN (c :: acc)

/-- After the `[ ]*` of the leading-delimiter `re.sub`: drop spaces, then at
most one newline. -/
def dropSpacesThenNl (cs : List Char) : List Char :=
  match cs with
  | ' ' :: rest => dropSpacesThenNl rest
  | '\n' :: rest => rest
  | _ => cs

/-- Model of `re.sub(r"^---[ ]*\n?", "", text, count=1)` (no MULTILINE: `^` is the
start of the string only). -/
def subLeadingDelim (cs : List Char) : List Char :=
  match cs with
  | '-' :: '-' :: '-' :: rest => dropSpacesThenNl rest
  | _ => cs

/-- The full fragment list: leading-delimiter removal, then the MULTILINE
split (position 0 of the remaining text is a line start). -/
def splitText (cs : List Char) : List (List Char) :=
  goSplit (subLeadingDelim cs) .s0 []

/-- The pairing loop `for i in range(0, len(blocks), 2)`: consecutive
fragments become (metadata, content) items; a final unpaired fragment
becomes a metadata-only item with empty content when non-blank
(`blocks[i].strip()`), and is dropped when blank. -/
def pairUp (blocks : List (List Char)) : List (List Char × List Char) :=
  match blocks with
  | m :: c :: rest => (m, c) :: pairUp rest
  | [m] => if isBlank m then [] else [(m, [])]
  | [] => []

/-! ### Model of `yaml.safe_load`

The real decoder is the external PyYAML library.  The model below covers the
flat subset of YAML that Journal.TXT metadata blocks use: blank input decodes
to `None` (here `.null`), a block of `key: value` lines decodes to a mapping
(later duplicate keys overwriting earlier ones, Python-dict style), a block
of `- item` lines decodes to a sequence, and a single plain line decodes to
a scalar.  Scalars are plain integers, booleans, nulls or strings.  `none`
stands for every input the model does not cover, conflated with a YAML
parse error. -/

def splitLines (cs : List Char) : List (List Char) :=
  match cs with
  | [] => [[]]
  | '\n' :: rest => [] :: splitLines rest
  | c :: rest =>
    match splitLines rest with
    | l :: ls => (c :: l) :: ls
    | [] => [[c]]

/-- Decode a plain YAML scalar (already the full value text; stripped
before classification). -/
def parseScalar (cs : List Char) : Yaml :=
  let t := pyStrip cs
  if t = [] then .null
  else if t.all isDigitChar then .int (digitsToNat t : Int)
  else if t = "true".data ∨ t = "True".data then .bool true
  else if t = "false".data ∨ t = "False".data then .bool false
  else if t = "null".data ∨ t = "~".data then .null
  else .str (String.mk t)

/-- One `key: value` line of a flat block mapping: a plain key (no spaces,
no colon), a colon, then either end of line or a space and the value. -/
def parseKVLine (line : List Char) : Option (String × Yaml) :=
  match line.span (fun c => c != ':') with
  | (key, ':' :: valPart) =>
    if key ≠ [] ∧ key.all (fun c => !pyIsSpace c && c != ':')
        ∧ (valPart = [] ∨ valPart.head? = some ' ') then
      some (String.mk key, parseScalar valPart)
    else none
  | _ => none

/-- One `- item` line of a flat block sequence. -/
def parseSeqLine (line : List Char) : Option Yaml :=
  match line with
  | '-' :: rest =>
    if rest = [] then some .null
    else if rest.head? = some ' ' then some (parseScalar rest) else none
  | _ => none

def yamlSafeLoad (cs : List Char) : Option Yaml :=
  let lines := (splitLines cs).filter (fun l => !isBlank l)
  match lines with
  | [] => some .null
  | _ =>
    match lines.mapM parseKVLine with
    | some kvs => some (.map (kvs.foldl (fun d kv => dictSet d kv.1 kv.2) []))
    | none =>
      match lines.mapM parseSeqLine with
      | some items => some (.seq items)
      | none =>
        match lines with
        | [l] => if l.any (fun c => c = ':') then none else some (parseScalar l)
        | _ => none

/-! ### Date-field resolution (`Parser.parse` body, per entry) -/

/-- English month names, as matched (case-insensitively) by
`datetime.strptime(month_str, "%B")`. -/
def monthFullNames : List (List Char × Int) :=
  [("january".data, 1), ("february".data, 2), ("march".data, 3),
   ("april".data, 4), ("may".data, 5), ("june".data, 6),
   ("july".data, 7), ("august".data, 8), ("september".data, 9),
   ("october".data, 10), ("november".data, 11), ("december".data, 12)]

/-- Abbreviated English month names, `datetime.strptime(month_str, "%b")`. -/
def monthAbbrevNames : List (List Char × Int) :=
  [("jan".data, 1), ("feb".data, 2), ("mar".data, 3), ("apr".data, 4),
   ("may".data, 5), ("jun".data, 6), ("jul".data, 7), ("aug".data, 8),
   ("sep".data, 9), ("oct".data, 10), ("nov".data, 11), ("dec".data, 12)]

def lookupMonthName (table : List (List Char × Int)) (t : List Char) :
    Option Int :=
  match table with
  | [] => none
  | (nm, n) :: rest => if nm = t then some n else lookupMonthName rest t

/-- Python `int(s)` on a stripped string: optional sign then decimal
digits; `none` models the `ValueError`. -/
def parsePyInt (t : List Char) : Option Int :=
  match t with
  | '-' :: ds =>
    if ds ≠ [] ∧ ds.all isDigitChar then some (-(digitsToNat ds : Int)) else none
  | '+' :: ds =>
    if ds ≠ [] ∧ ds.all isDigitChar then some ((digitsToNat ds : Int)) else none
  | ds =>
    if ds ≠ [] ∧ ds.all isDigitChar then some ((digitsToNat ds : Int)) else none

/-- Step `# Process year`: explicit value used as-is, else inherited from
`last_page_date`, else `ParserError` (ordinal already 1-based). -/
def processYear (ord : Nat) (year : Option Yaml) (lastPageDate : Option PyDate) :
    Except PyExn Yaml :=
  match year with
  | some y => .ok y
  | none =>
    match lastPageDate with
    | some d => .ok (.int d.year)
    | none => .error (.parserError (.yearRequired ord))

/-- Step `# Process day (required for all entries)`: never inherited; a string
value yields the first maximal digit run (`re.findall(r"\d+", day)`). -/
def processDay (ord : Nat) (day : Option Yaml) : Except PyExn Yaml :=
  match day with
  | none => .error (.parserError (.dayRequired ord))
  | some (.str s) =>
    match findallDigits s.data with
    | ds :: _ => .ok (.int (strToInt ds))
    | [] => .error (.parserError (.invalidDayFormat ord s))
  | some v => .ok v

/-- The string branch of `# Process month`: strip, try the full month
name (`%B`), then the abbreviated name (`%b`), then `int(month_str)`;
otherwise `ParserError`. -/
def monthFromString (ord : Nat) (s : String) : Except PyExn Yaml :=
  let t := lowerChars (pyStrip s.data)
  match lookupMonthName monthFullNames t with
  | some n => .ok (.int n)
  | none =>
    match lookupMonthName monthAbbrevNames t with
    | some n => .ok (.int n)
    | none =>
      match parsePyInt (pyStrip s.data) with
      | some n => .ok (.int n)
      | none => .error (.parserError (.invalidMonthFormat ord s))

/-- Step `# Process month`: explicit value (strings via `monthFromString`),
else inherited from `last_page_date`, else `ParserError`. -/
def processMonth (ord : Nat) (month : Option Yaml) (lastPageDate : Option PyDate) :
    Except PyExn Yaml :=
  match month with
  | none =>
    match lastPageDate with
    | some d => .ok (.int d.month)
    | none => .error (.parserError (.monthRequired ord))
  | some (.str s) => monthFromString ord s
  | some v => .ok v

def isLeapYear (y : Int) : Bool :=
  y % 4 = 0 && (y % 100 ≠ 0 || y % 400 = 0)

def daysInMonth (y m : Int) : Int :=
  if m = 2 then (if isLeapYear y then 29 else 28)
  else if m = 4 ∨ m = 6 ∨ m = 9 ∨ m = 11 then 30
  else 31

/-- The argument check of the `datetime.date` constructor. -/
def validDate (y m d : Int) : Prop :=
  1 ≤ y ∧ y ≤ 9999 ∧ 1 ≤ m ∧ m ≤ 12 ∧ 1 ≤ d ∧ d ≤ daysInMonth y m

instance (y m d : Int) : Decidable (validDate y m d) := by
  unfold validDate; infer_instance

/-- A Python value usable as an integer argument of `date(...)`: `int`s
and `bool`s (`True` is `1`); anything else raises `TypeError`. -/
def toPyInt : Yaml → Option Int
  | .int n => some n
  | .bool b => some (if b then 1 else 0)
  | _ => none

/-- Model of `date(year, month, day)` inside its `try`: a `ValueError` (invalid
triple) is converted to `ParserError`; a `TypeError` (non-integer
argument) is not caught and escapes. -/
def makeDate (ord : Nat) (year month day : Yaml) : Except PyExn PyDate :=
  match toPyInt year, toPyInt month, toPyInt day with
  | some y, some m, some d =>
    if validDate y m d then .ok ⟨y, m, d⟩
    else .error (.parserError (.invalidDate ord y m d))
  | _, _, _ => .error .typeError

/-- The per-entry body of the `for i, (meta_text, content)` loop after the
YAML decode: pop `year`/`month`/`day`, resolve them in source order
(year, day, month), build the date, store it under `"date"`.  `i` is the
0-based index; error ordinals are `i + 1`. -/
def resolveEntry (i : Nat) (lastPageDate : Option PyDate) (pageMeta : PyDict)
    (content : String) : Except PyExn ((PyDict × String) × PyDate) :=
  match processYear (i + 1) (dictGet pageMeta "year") lastPageDate with
  | .error e => .error e
  | .ok year =>
    match processDay (i + 1) (dictGet pageMeta "day") with
    | .error e => .error e
    | .ok day =>
      match processMonth (i + 1) (dictGet pageMeta "month") lastPageDate with
      | .error e => .error e
      | .ok month =>
        match makeDate (i + 1) year month day with
        | .error e => .error e
        | .ok pageDate =>
          .ok ((dictSet
              (dictRemove (dictRemove (dictRemove pageMeta "year") "month") "day")
              "date" (.date pageDate), content), pageDate)

/-- Model of `yaml.safe_load(meta_text)` with the surrounding `try`/`except
yaml.YAMLError` and the `None → {}` defaulting, followed by the implicit
requirement (via `.pop`) that the value is a dict: a list raises
`TypeError`, any other non-dict raises `AttributeError`. -/
def loadMeta (i : Nat) (metaText : List Char) : Except PyExn PyDict :=
  match yamlSafeLoad metaText with
  | none => .error (.parserError (.invalidYaml (i + 1)))
  | some .null => .ok []
  | some (.map m) => .ok m
  | some (.seq _) => .error .typeError
  | some _ => .error .attributeError

/-- The entry loop: decode each metadata block, resolve its date threading
`last_page_date`, and collect the `(page_meta, content)` outputs.  Also
returns the final `last_page_date`, the loop variable's last value. -/
def processItems (lastPageDate : Option PyDate) (i : Nat) :
    List (List Char × List Char) →
    Except PyExn (List (PyDict × String) × Option PyDate)
  | [] => .ok ([], lastPageDate)
  | (metaText, content) :: rest =>
    match loadMeta i metaText with
    | .error e => .error e
    | .ok pageMeta =>
      match resolveEntry i lastPageDate pageMeta (String.mk content) with
      | .error e => .error e
      | .ok (entry, pageDate) =>
        match processItems (some pageDate) (i + 1) rest with
        | .error e => .error e
        | .ok (entries, finalDate) => .ok (entry :: entries, finalDate)

/-- Model of `Parser.parse` / `Parser.parse_text`: the whole pipeline. -/
def parse (text : String) : Except PyExn (List (PyDict × String)) :=
  match processItems none 0 (pairUp (splitText text.data)) with
  | .error e => .error e
  | .ok (entries, _) => .ok entries

/-! ### Helper lemmas -/

theorem dictGet_dictSet_self (m : PyDict) (k : String) (v : Yaml) :
    dictGet (dictSet m k v) k = some v := by
  induction m with
  | nil => simp [dictSet, dictGet]
  | cons p rest ih =>
    obtain ⟨k', v'⟩ := p
    by_cases h : k' = k <;> simp [dictSet, dictGet, h, ih]

theorem dictGet_dictSet_ne (m : PyDict) (k k' : String) (v : Yaml)
    (h : k' ≠ k) : dictGet (dictSet m k v) k' = dictGet m k' := by
  induction m with
  | nil => simp [dictSet, dictGet, Ne.symm h]
  | cons p rest ih =>
    obtain ⟨k'', v'⟩ := p
    by_cases hk : k'' = k
    · subst hk
      simp [dictSet, dictGet, Ne.symm h]
    · by_cases hk' : k'' = k'
      · simp [dictSet, hk, dictGet, hk', h]
      · simp [dictSet, hk, dictGet, hk', ih]

theorem dictGet_dictRemove_self (m : PyDict) (k : String) :
    dictGet (dictRemove m k) k = none := by
  induction m with
  | nil => simp [dictRemove, dictGet]
  | cons p rest ih =>
    obtain ⟨k', v'⟩ := p
    by_cases h : k' = k <;> simp [dictRemove, dictGet, h, ih]

theorem dictGet_dictRemove_ne (m : PyDict) (k k' : String) (h : k' ≠ k) :
    dictGet (dictRemove m k) k' = dictGet m k' := by
  induction m with
  | nil => simp [dictRemove, dictGet]
  | cons p rest ih =>
    obtain ⟨k'', v'⟩ := p
    by_cases hk : k'' = k
    · subst hk
      simp [dictRemove, dictGet, Ne.symm h, ih]
    · by_cases hk' : k'' = k'
      · simp [dictRemove, hk, dictGet, hk', h]
      · simp [dictRemove, hk, dictGet, hk', ih]

theorem filter_dictSet_of_false (m : PyDict) (k : String) (v : Yaml)
    (P : String × Yaml → Bool) (hP : ∀ w, P (k, w) = false) :
    (dictSet m k v).filter P = m.filter P := by
  induction m with
  | nil => simp [dictSet, List.filter, hP]
  | cons p rest ih =>
    obtain ⟨k', v'⟩ := p
    by_cases h : k' = k
    · subst h
      simp [dictSet, List.filter, hP]
    · simp [dictSet, h, List.filter, ih]

theorem filter_dictRemove_of_false (m : PyDict) (k : String)
    (P : String × Yaml → Bool) (hP : ∀ w, P (k, w) = false) :
    (dictRemove m k).filter P = m.filter P := by
  induction m with
  | nil => simp [dictRemove]
  | cons p rest ih =>
    obtain ⟨k', v'⟩ := p
    by_cases h : k' = k
    · subst h
      simp [dictRemove, List.filter, hP, ih]
    · simp [dictRemove, h, List.filter, ih]

theorem makeDate_ok_year {ord : Nat} {y mo dd : Yaml} {p : PyDate}
    (h : makeDate ord y mo dd = .ok p) : toPyInt y = some p.year := by
  unfold makeDate at h
  split at h
  · split at h
    · cases h
      simp_all
    · cases h
  · cases h

theorem makeDate_ok_month {ord : Nat} {y mo dd : Yaml} {p : PyDate}
    (h : makeDate ord y mo dd = .ok p) : toPyInt mo = some p.month := by
  unfold makeDate at h
  split at h
  · split at h
    · cases h
      simp_all
    · cases h
  · cases h

theorem makeDate_ok_day {ord : Nat} {y mo dd : Yaml} {p : PyDate}
    (h : makeDate ord y mo dd = .ok p) : toPyInt dd = some p.day := by
  unfold makeDate at h
  split at h
  · split at h
    · cases h
      simp_all
    · cases h
  · cases h

theorem makeDate_ok_valid {ord : Nat} {y mo dd : Yaml} {p : PyDate}
    (h : makeDate ord y mo dd = .ok p) : validDate p.year p.month p.day := by
  unfold makeDate at h
  split at h
  · rename_i hy hm hd
    split at h
    · cases h
      assumption
    · cases h
  · cases h

/-- Inversion of a successful `resolveEntry`: the four resolution steps
succeeded in order and the output dict is the popped dict with the resolved
date stored under `"date"`. -/
theorem resolveEntry_ok_inv {i : Nat} {st : Option PyDate} {m : PyDict}
    {c : String} {out : PyDict × String} {d' : PyDate}
    (h : resolveEntry i st m c = .ok (out, d')) :
    ∃ year day month,
      processYear (i + 1) (dictGet m "year") st = .ok year ∧
      processDay (i + 1) (dictGet m "day") = .ok day ∧
      processMonth (i + 1) (dictGet m "month") st = .ok month ∧
      makeDate (i + 1) year month day = .ok d' ∧
      out = (dictSet (dictRemove (dictRemove (dictRemove m "year") "month") "day")
          "date" (.date d'), c) := by
  unfold resolveEntry at h
  split at h
  · cases h
  · rename_i year hy
    split at h
    · cases h
    · rename_i day hd
      split at h
      · cases h
      · rename_i month hm
        split at h
        · cases h
        · rename_i pageDate hdate
          injection h with h1
          injection h1 with hout hd2
          subst hout
          subst hd2
          exact ⟨year, day, month, hy, hd, hm, hdate, rfl⟩

/-- The entry loop splits over list append, threading `last_page_date` and
the running index. -/
theorem processItems_append (st : Option PyDate) (i : Nat)
    (xs ys : List (List Char × List Char)) :
    processItems st i (xs ++ ys) =
      match processItems st i xs with
      | .error e => .error e
      | .ok (outs, st') =>
        match processItems st' (i + xs.length) ys with
        | .error e => .error e
        | .ok (outs', st'') => .ok (outs ++ outs', st'') := by
  induction xs generalizing st i with
  | nil =>
    simp [processItems]
    cases processItems st i ys with
    | error e => rfl
    | ok r => rfl
  | cons x rest ih =>
    obtain ⟨metaText, content⟩ := x
    simp only [List.cons_append, processItems, List.length_cons]
    cases loadMeta i metaText with
    | error e => rfl
    | ok pageMeta =>
      dsimp only
      cases resolveEntry i st pageMeta (String.mk content) with
      | error e => rfl
      | ok r =>
        obtain ⟨entry, pageDate⟩ := r
        dsimp only
        simp only [List.append_eq]
        rw [ih (some pageDate) (i + 1)]
        cases processItems (some pageDate) (i + 1) rest with
        | error e => rfl
        | ok r' =>
          obtain ⟨entries, finalDate⟩ := r'
          dsimp only
          have hlen : i + 1 + rest.length = i + (rest.length + 1) := by omega
          rw [hlen]
          cases processItems finalDate (i + (rest.length + 1)) ys with
          | error e => rfl
          | ok r'' => obtain ⟨o, s⟩ := r''; dsimp only; simp

/-! ### Claim theorems -/

/-- C1: for the input
`"---\nyear: 2017\nmonth: 7\nday: 19\n---\nFirst.\n---\nday: 20\n---\nSecond.\n"`,
`parse` returns exactly two entries, in order, whose resolved dates are
2017-07-19 and 2017-07-20 and whose content strings are exactly
`"First.\n"` and `"Second.\n"`. -/
theorem C1_two_entry_scenario :
    parse "---\nyear: 2017\nmonth: 7\nday: 19\n---\nFirst.\n---\nday: 20\n---\nSecond.\n" =
      .ok [([("date", .date ⟨2017, 7, 19⟩)], "First.\n"),
           ([("date", .date ⟨2017, 7, 20⟩)], "Second.\n")] := rfl

/-- C2: for an entry that resolves successfully, an omitted `year` (resp.
`month`) key makes the resolved date take the year (resp. month) of
`last_page_date` — the resolved date of the nearest preceding entry, as
threaded by `processItems` — while an explicitly present integer `year`
(resp. `month`) is used directly as the resolved date's year (resp.
month). -/
theorem C2_year_month_inheritance (i : Nat) (st : Option PyDate) (m : PyDict)
    (c : String) (out : PyDict × String) (d' : PyDate)
    (h : resolveEntry i st m c = .ok (out, d')) :
    (∀ d, st = some d → dictGet m "year" = none → d'.year = d.year) ∧
    (∀ d, st = some d → dictGet m "month" = none → d'.month = d.month) ∧
    (∀ y, dictGet m "year" = some (.int y) → d'.year = y) ∧
    (∀ mo, dictGet m "month" = some (.int mo) → d'.month = mo) := by
  obtain ⟨year, day, month, hy, hd, hm, hdate, -⟩ := resolveEntry_ok_inv h
  refine ⟨?_, ?_, ?_, ?_⟩
  · intro d hst hnone
    rw [hst, hnone] at hy
    simp only [processYear] at hy
    cases hy
    have := makeDate_ok_year hdate
    simp [toPyInt] at this
    omega
  · intro d hst hnone
    rw [hst, hnone] at hm
    simp only [processMonth] at hm
    cases hm
    have := makeDate_ok_month hdate
    simp [toPyInt] at this
    omega
  · intro y hsome
    rw [hsome] at hy
    simp only [processYear] at hy
    cases hy
    have := makeDate_ok_year hdate
    simp [toPyInt] at this
    omega
  · intro mo hsome
    rw [hsome] at hm
    simp only [processMonth] at hm
    cases hm
    have := makeDate_ok_month hdate
    simp [toPyInt] at this
    omega

/-- Witness for C2: the second entry of the C1 scenario, with only
`day: 20`, inherits year 2017 and month 7 from the previous resolved date
2017-07-19. -/
theorem C2_witness :
    resolveEntry 1 (some ⟨2017, 7, 19⟩) [("day", .int 20)] "Second.\n" =
      .ok (([("date", .date ⟨2017, 7, 20⟩)], "Second.\n"), ⟨2017, 7, 20⟩) ∧
    (⟨2017, 7, 20⟩ : PyDate).year = (⟨2017, 7, 19⟩ : PyDate).year ∧
    (⟨2017, 7, 20⟩ : PyDate).month = (⟨2017, 7, 19⟩ : PyDate).month := by
  refine ⟨rfl, ?_, ?_⟩
  · exact (C2_year_month_inheritance 1 (some ⟨2017, 7, 19⟩) [("day", .int 20)]
      "Second.\n" ([("date", .date ⟨2017, 7, 20⟩)], "Second.\n") ⟨2017, 7, 20⟩
      rfl).1 ⟨2017, 7, 19⟩ rfl rfl
  · exact (C2_year_month_inheritance 1 (some ⟨2017, 7, 19⟩) [("day", .int 20)]
      "Second.\n" ([("date", .date ⟨2017, 7, 20⟩)], "Second.\n") ⟨2017, 7, 20⟩
      rfl).2.1 ⟨2017, 7, 19⟩ rfl rfl

/-- If the entry's `year` is explicitly present or a previous resolved date
exists, the year-resolution step succeeds. -/
theorem processYear_ok_of (ord : Nat) (st : Option PyDate) (m : PyDict)
    (hyr : dictGet m "year" ≠ none ∨ st ≠ none) :
    ∃ y, processYear ord (dictGet m "year") st = .ok y := by
  rcases hyr with h1 | h2
  · cases hyv : dictGet m "year" with
    | none => exact absurd hyv h1
    | some v => exact ⟨v, by simp [processYear]⟩
  · cases hstv : st with
    | none => exact absurd hstv h2
    | some d =>
      cases hyv : dictGet m "year" with
      | none => exact ⟨.int d.year, by simp [processYear]⟩
      | some v => exact ⟨v, by simp [processYear]⟩

/-- An entry whose metadata has no `day` key fails with the day-required
`ParserError` whenever the year step gets past (day is checked right after
year, before month). -/
theorem resolveEntry_dayMissing (i : Nat) (st : Option PyDate) (m : PyDict)
    (c : String) (hday : dictGet m "day" = none)
    (hyr : dictGet m "year" ≠ none ∨ st ≠ none) :
    resolveEntry i st m c = .error (.parserError (.dayRequired (i + 1))) := by
  obtain ⟨y, hy⟩ := processYear_ok_of (i + 1) st m hyr
  unfold resolveEntry
  rw [hy]
  dsimp only
  rw [hday]
  simp [processDay]

/-- An entry whose `day` value is a string containing no decimal digit
fails with the invalid-day-format `ParserError` whenever the year step gets
past. -/
theorem resolveEntry_dayNoDigits (i : Nat) (st : Option PyDate) (m : PyDict)
    (c : String) (s : String) (hday : dictGet m "day" = some (.str s))
    (hnod : findallDigits s.data = [])
    (hyr : dictGet m "year" ≠ none ∨ st ≠ none) :
    resolveEntry i st m c = .error (.parserError (.invalidDayFormat (i + 1) s)) := by
  obtain ⟨y, hy⟩ := processYear_ok_of (i + 1) st m hyr
  unfold resolveEntry
  rw [hy]
  dsimp only
  rw [hday]
  simp [processDay, hnod]

/-- If the first `pre.length` items resolve successfully and the next item
decodes to the mapping `m` on which `resolveEntry` fails with `e`, the
whole loop fails with `e`. -/
theorem processItems_fail_at (pre : List (List Char × List Char))
    (outs : List (PyDict × String)) (st : Option PyDate)
    (metaText content : List Char) (m : PyDict)
    (rest : List (List Char × List Char)) (e : PyExn)
    (hpre : processItems none 0 pre = .ok (outs, st))
    (hload : yamlSafeLoad metaText = some (.map m))
    (hres : resolveEntry pre.length st m (String.mk content) = .error e) :
    processItems none 0 (pre ++ (metaText, content) :: rest) = .error e := by
  rw [processItems_append, hpre]
  dsimp only
  simp only [Nat.zero_add, processItems]
  rw [show loadMeta pre.length metaText = .ok m by simp [loadMeta, hload]]
  dsimp only
  rw [hres]

/-- C3 counterexample: the first entry of `"---\n---\nHello\n"` has empty
metadata, so it omits `day`; but `parse` fails with the year-required
`MissingRequiredField` error, not the day-required one the claim
promises, because the year check runs before the day check. -/
theorem C3_counterexample :
    parse "---\n---\nHello\n" = .error (.parserError (.yearRequired 1)) ∧
    PyExn.parserError (.yearRequired 1) ≠ .parserError (.dayRequired 1) :=
  ⟨rfl, by decide⟩

/-- C3 (amended): an entry whose metadata block omits `day` always makes
the parse fail, and the failure is the day-required `MissingRequiredField`
error with that entry's 1-based ordinal whenever all preceding entries
resolved successfully and the entry's year is resolvable (explicitly
present, or a preceding entry resolved).  The day is never inherited: the
hypothesis allows `st` to be any previously resolved date.  (As stated the
claim is false: when the first entry omits both `year` and `day`, the year
check fires first.) -/
theorem C3_day_required (pre : List (List Char × List Char))
    (outs : List (PyDict × String)) (st : Option PyDate)
    (metaText content : List Char) (m : PyDict)
    (rest : List (List Char × List Char))
    (hpre : processItems none 0 pre = .ok (outs, st))
    (hload : yamlSafeLoad metaText = some (.map m))
    (hday : dictGet m "day" = none)
    (hyr : dictGet m "year" ≠ none ∨ st ≠ none) :
    processItems none 0 (pre ++ (metaText, content) :: rest) =
      .error (.parserError (.dayRequired (pre.length + 1))) :=
  processItems_fail_at pre outs st metaText content m rest _ hpre hload
    (resolveEntry_dayMissing pre.length st m (String.mk content) hday hyr)

/-- Witness for C3: after a first entry resolving to 2017-07-19, a second
entry `month: 3` (no `day`) fails with the day-required error for entry 2,
even though the previous entry supplied a day. -/
theorem C3_witness :
    processItems none 0
      ([(("year: 2017\nmonth: 7\nday: 19\n").data, ("First.\n").data)] ++
        [(("month: 3\n").data, ("Body\n").data)]) =
      .error (.parserError (.dayRequired 2)) :=
  C3_day_required
    [(("year: 2017\nmonth: 7\nday: 19\n").data, ("First.\n").data)]
    [([("date", .date ⟨2017, 7, 19⟩)], "First.\n")] (some ⟨2017, 7, 19⟩)
    ("month: 3\n").data ("Body\n").data [("month", .int 3)] []
    rfl rfl rfl (Or.inr (by simp))

/-- The keys the date-resolution step touches: `year`, `month`, `day` are
popped, `date` is (over)written.  Every other binding passes through. -/
def passThroughKey (p : String × Yaml) : Bool :=
  p.1 != "year" && p.1 != "month" && p.1 != "day" && p.1 != "date"

/-- C4 counterexample: a metadata block that itself contains a `date` key.
The decoded block binds `date` to the string `"hello"`, but the emitted
entry binds `date` to the resolved calendar date: the original value is
not passed through unchanged, contradicting the claim's "every other key
... with its decoded value unchanged" (`date` is not among the removed
`year`/`month`/`day` keys). -/
theorem C4_counterexample :
    yamlSafeLoad ("date: hello\nyear: 2017\nmonth: 7\nday: 19\n").data =
      some (.map [("date", .str "hello"), ("year", .int 2017),
                  ("month", .int 7), ("day", .int 19)]) ∧
    parse "---\ndate: hello\nyear: 2017\nmonth: 7\nday: 19\n---\nX\n" =
      .ok [([("date", .date ⟨2017, 7, 19⟩)], "X\n")] := ⟨rfl, rfl⟩

/-- C4 (amended): every successfully resolved entry's metadata contains
`date` bound to a valid calendar date, contains none of `year`, `month`,
`day`, and passes every other key except a pre-existing `date` key through
unchanged and in original relative order; a pre-existing `date` key keeps
its position but its value is overwritten with the resolved date.  The
content is returned unchanged. -/
theorem C4_metadata_contract (i : Nat) (st : Option PyDate) (m : PyDict)
    (c : String) (out : PyDict) (c' : String) (d' : PyDate)
    (h : resolveEntry i st m c = .ok ((out, c'), d')) :
    dictGet out "date" = some (.date d') ∧
    validDate d'.year d'.month d'.day ∧
    dictGet out "year" = none ∧
    dictGet out "month" = none ∧
    dictGet out "day" = none ∧
    out.filter passThroughKey = m.filter passThroughKey ∧
    c' = c := by
  obtain ⟨year, day, month, hy, hd, hm, hdate, hout⟩ := resolveEntry_ok_inv h
  injection hout with hout hc
  subst hout
  subst hc
  refine ⟨?_, makeDate_ok_valid hdate, ?_, ?_, ?_, ?_, rfl⟩
  · exact dictGet_dictSet_self _ _ _
  · rw [dictGet_dictSet_ne _ _ _ _ (by decide),
      dictGet_dictRemove_ne _ _ _ (by decide),
      dictGet_dictRemove_ne _ _ _ (by decide), dictGet_dictRemove_self]
  · rw [dictGet_dictSet_ne _ _ _ _ (by decide),
      dictGet_dictRemove_ne _ _ _ (by decide), dictGet_dictRemove_self]
  · rw [dictGet_dictSet_ne _ _ _ _ (by decide), dictGet_dictRemove_self]
  · rw [filter_dictSet_of_false _ _ _ _ (fun w => rfl),
      filter_dictRemove_of_false _ _ _ (fun w => rfl),
      filter_dictRemove_of_false _ _ _ (fun w => rfl),
      filter_dictRemove_of_false _ _ _ (fun w => rfl)]

/-- Witness for C4: a concrete entry with a custom `title` key and a
pre-existing `date` key; the resolved metadata keeps `title` unchanged,
drops `year`/`month`/`day`, and rebinds `date` in place. -/
theorem C4_witness :
    resolveEntry 0 none
      [("date", .str "hello"), ("year", .int 2017), ("month", .int 7),
       ("day", .int 19), ("title", .str "T")] "X" =
      .ok (([("date", .date ⟨2017, 7, 19⟩), ("title", .str "T")], "X"),
        ⟨2017, 7, 19⟩) ∧
    dictGet [("date", .date ⟨2017, 7, 19⟩), ("title", .str "T")] "date" =
      some (.date ⟨2017, 7, 19⟩) ∧
    List.filter passThroughKey
        [("date", .date ⟨2017, 7, 19⟩), ("title", .str "T")] =
      List.filter passThroughKey
        [("date", .str "hello"), ("year", .int 2017), ("month", .int 7),
         ("day", .int 19), ("title", .str "T")] := by
  refine ⟨rfl, ?_, ?_⟩
  · exact (C4_metadata_contract 0 none
      [("date", .str "hello"), ("year", .int 2017), ("month", .int 7),
       ("day", .int 19), ("title", .str "T")] "X"
      [("date", .date ⟨2017, 7, 19⟩), ("title", .str "T")] "X" ⟨2017, 7, 19⟩
      rfl).1
  · exact (C4_metadata_contract 0 none
      [("date", .str "hello"), ("year", .int 2017), ("month", .int 7),
       ("day", .int 19), ("title", .str "T")] "X"
      [("date", .date ⟨2017, 7, 19⟩), ("title", .str "T")] "X" ⟨2017, 7, 19⟩
      rfl).2.2.2.2.2.1

/-- Whether a text begins with three hyphens (the start of a delimiter
match when standing at a line start). -/
def startsWithDash3 (cs : List Char) : Bool :=
  match cs with
  | '-' :: '-' :: '-' :: _ => true
  | _ => false

/-- Whether some line start of the text begins with three hyphens (`ls`
says whether the current position is a line start). -/
def hasDelimAt (cs : List Char) (ls : Bool) : Bool :=
  match cs with
  | [] => false
  | c :: rest => (ls && startsWithDash3 (c :: rest)) || hasDelimAt rest (c == '\n')

/-- Hyphens consumed by the scanner but still owned by the current
fragment if the pending delimiter match fails. -/
def pendingDashes : SplitState → List Char
  | .s1 => ['-']
  | .s2 => ['-', '-']
  | _ => []

def atLineStart : SplitState → Bool
  | .sN => false
  | _ => true

/-- On a text with no line start beginning with three hyphens, the
splitter scanner never fires and returns the single fragment
`acc.reverse ++ pending ++ cs`. -/
theorem goSplit_noDelim (cs : List Char) (st : SplitState) (acc : List Char)
    (hst : st ≠ .sD)
    (hdelim : hasDelimAt (pendingDashes st ++ cs) (atLineStart st) = false) :
    goSplit cs st acc = [acc.reverse ++ pendingDashes st ++ cs] := by
  induction cs, st, acc using goSplit.induct with
  | case1 acc => simp [goSplit, pendingDashes]
  | case2 acc => simp [goSplit, pendingDashes]
  | case3 st acc h1 h2 =>
    cases st
    · simp [goSplit, pendingDashes]
    · exact absurd rfl h1
    · exact absurd rfl h2
    · exact absurd rfl hst
    · simp [goSplit, pendingDashes]
  | case4 acc rest ih =>
    simp only [pendingDashes, atLineStart, List.nil_append] at hdelim ⊢
    rw [show goSplit ('-' :: rest) .s0 acc = goSplit rest .s1 acc from by
      simp [goSplit]]
    rw [ih (by simp) (by simpa [pendingDashes, atLineStart] using hdelim)]
    simp [pendingDashes]
  | case5 acc rest h ih =>
    simp only [pendingDashes, atLineStart, List.nil_append] at hdelim ⊢
    rw [show goSplit ('\n' :: rest) .s0 acc = goSplit rest .s0 ('\n' :: acc) from by
      simp [goSplit]]
    have hrec : hasDelimAt rest true = false := by
      simpa [hasDelimAt, startsWithDash3] using hdelim
    rw [ih (by simp) (by simpa [pendingDashes, atLineStart] using hrec)]
    simp [pendingDashes]
  | case6 acc c rest h1 h2 ih =>
    simp only [pendingDashes, atLineStart, List.nil_append] at hdelim ⊢
    rw [show goSplit (c :: rest) .s0 acc = goSplit rest .sN (c :: acc) from by
      simp [goSplit, h1, h2]]
    have hrec : hasDelimAt rest false = false := by
      have := hdelim
      simp [hasDelimAt] at this
      have hc : (c == '\n') = false := by simp [h2]
      rw [hc] at this
      exact this.2
    rw [ih (by simp) (by simpa [pendingDashes, atLineStart] using hrec)]
    simp [pendingDashes]
  | case7 acc rest ih =>
    simp only [pendingDashes, atLineStart, List.cons_append,
      List.nil_append] at hdelim ⊢
    rw [show goSplit ('-' :: rest) .s1 acc = goSplit rest .s2 acc from by
      simp [goSplit]]
    rw [ih (by simp) (by simpa [pendingDashes, atLineStart] using hdelim)]
    simp [pendingDashes]
  | case8 acc rest h ih =>
    simp only [pendingDashes, atLineStart, List.cons_append,
      List.nil_append] at hdelim ⊢
    rw [show goSplit ('\n' :: rest) .s1 acc = goSplit rest .s0 ('\n' :: '-' :: acc)
        from by simp [goSplit]]
    have hrec : hasDelimAt rest true = false := by
      simpa [hasDelimAt, startsWithDash3] using hdelim
    rw [ih (by simp) (by simpa [pendingDashes, atLineStart] using hrec)]
    simp [pendingDashes]
  | case9 acc c rest h1 h2 ih =>
    simp only [pendingDashes, atLineStart, List.cons_append,
      List.nil_append] at hdelim ⊢
    rw [show goSplit (c :: rest) .s1 acc = goSplit rest .sN (c :: '-' :: acc) from by
      simp [goSplit, h1, h2]]
    have hrec : hasDelimAt rest false = false := by
      have := hdelim
      simp [hasDelimAt, startsWithDash3, h1] at this
      have hc : (c == '\n') = false := by simp [h2]
      rw [hc] at this
      exact this
    rw [ih (by simp) (by simpa [pendingDashes, atLineStart] using hrec)]
    simp [pendingDashes]
  | case10 acc rest ih =>
    simp [pendingDashes, atLineStart, hasDelimAt, startsWithDash3] at hdelim
  | case11 acc rest h ih =>
    simp only [pendingDashes, atLineStart, List.cons_append,
      List.nil_append] at hdelim ⊢
    rw [show goSplit ('\n' :: rest) .s2 acc =
        goSplit rest .s0 ('\n' :: '-' :: '-' :: acc) from by simp [goSplit]]
    have hrec : hasDelimAt rest true = false := by
      simpa [hasDelimAt, startsWithDash3] using hdelim
    rw [ih (by simp) (by simpa [pendingDashes, atLineStart] using hrec)]
    simp [pendingDashes]
  | case12 acc c rest h1 h2 ih =>
    simp only [pendingDashes, atLineStart, List.cons_append,
      List.nil_append] at hdelim ⊢
    rw [show goSplit (c :: rest) .s2 acc = goSplit rest .sN (c :: '-' :: '-' :: acc)
        from by simp [goSplit, h1, h2]]
    have hrec : hasDelimAt rest false = false := by
      have := hdelim
      simp [hasDelimAt, startsWithDash3, h1] at this
      have hc : (c == '\n') = false := by simp [h2]
      rw [hc] at this
      exact this
    rw [ih (by simp) (by simpa [pendingDashes, atLineStart] using hrec)]
    simp [pendingDashes]
  | case13 acc rest ih => exact absurd rfl hst
  | case14 acc rest h ih => exact absurd rfl hst
  | case15 acc c rest h1 h2 ih => exact absurd rfl hst
  | case16 acc rest ih =>
    simp only [pendingDashes, atLineStart, List.nil_append] at hdelim ⊢
    rw [show goSplit ('\n' :: rest) .sN acc = goSplit rest .s0 ('\n' :: acc) from by
      simp [goSplit]]
    have hrec : hasDelimAt rest true = false := by
      simpa [hasDelimAt] using hdelim
    rw [ih (by simp) (by simpa [pendingDashes, atLineStart] using hrec)]
    simp [pendingDashes]
  | case17 acc c rest h ih =>
    simp only [pendingDashes, atLineStart, List.nil_append] at hdelim ⊢
    rw [show goSplit (c :: rest) .sN acc = goSplit rest .sN (c :: acc) from by
      simp [goSplit, h]]
    have hrec : hasDelimAt rest false = false := by
      have := hdelim
      simp [hasDelimAt] at this
      have hc : (c == '\n') = false := by simp [h]
      rw [hc] at this
      exact this
    rw [ih (by simp) (by simpa [pendingDashes, atLineStart] using hrec)]
    simp [pendingDashes]

/-- C5 counterexample: the line `----` is split at — the regex
`^---[ ]*\n?` has no end-of-line anchor, so the match consumes the first
three hyphens and the fourth begins the next fragment.  Under the claim,
`"a\n----\nb"` would stay one single fragment. -/
theorem C5_counterexample :
    splitText ("a\n----\nb").data ≠ [("a\n----\nb").data] ∧
    splitText ("a\n----\nb").data = [("a\n").data, ("-\nb").data] :=
  ⟨by decide, rfl⟩

/-- C5 (amended): the splitter breaks the text at every line start
beginning with three hyphens, whatever follows on the line; the match
consumes the three hyphens, any following spaces and at most one newline,
and the remaining characters of the line start the next fragment (so
`----` and `--- x` are split points, leaving `-` resp. `x` in the next
fragment).  A text with no line start beginning with three hyphens is
returned as a single fragment. -/
theorem C5_delimiter_recognition :
    (∀ t : List Char, hasDelimAt t true = false → splitText t = [t]) ∧
    splitText ("a\n----\nb").data = [("a\n").data, ("-\nb").data] ∧
    splitText ("a\n--- x\nb").data = [("a\n").data, ("x\nb").data] := by
  refine ⟨?_, rfl, rfl⟩
  intro t ht
  have hd3 : startsWithDash3 t = false := by
    cases t with
    | nil => rfl
    | cons c rest =>
      simp [hasDelimAt] at ht
      simpa using ht.1
  have hsub : subLeadingDelim t = t := by
    unfold subLeadingDelim
    split
    · simp_all [startsWithDash3]
    · rfl
  unfold splitText
  rw [hsub]
  have := goSplit_noDelim t .s0 [] (by simp)
    (by simpa [pendingDashes, atLineStart] using ht)
  simpa [pendingDashes] using this

/-- Witness for C5: a delimiter-free text is one single fragment. -/
theorem C5_witness :
    hasDelimAt ("x\ny\n").data true = false ∧
    splitText ("x\ny\n").data = [("x\ny\n").data] :=
  ⟨rfl, C5_delimiter_recognition.1 ("x\ny\n").data rfl⟩

/-- C6 counterexample: `" "` is a non-empty text with no delimiter line,
yet `parse` returns zero entries without error (the single fragment is
blank, so the pairing loop drops it), where the claim demands a parsing
error for every non-empty delimiter-free text. -/
theorem C6_counterexample :
    parse " " = .ok [] ∧ (" " : String) ≠ "" := ⟨rfl, by decide⟩

/-- C6 (amended): for a text with no delimiter line (its fragment list is
just the whole text): if the text has no non-whitespace character
(including the empty text), `parse` returns zero entries without error;
otherwise the whole text becomes the metadata block of a single
metadata-only entry with empty content, which is resolved like any entry —
succeeding when it decodes to a mapping that supplies the date fields, as
the concrete conjunct shows. -/
theorem C6_no_delimiter_behavior :
    (∀ t : List Char, splitText t = [t] →
      (isBlank t = true → parse (String.mk t) = .ok []) ∧
      (isBlank t = false →
        parse (String.mk t) =
          match processItems none 0 [(t, [])] with
          | .error e => .error e
          | .ok (entries, _) => .ok entries)) ∧
    parse "year: 2000\nmonth: 1\nday: 5" =
      .ok [([("date", .date ⟨2000, 1, 5⟩)], "")] := by
  refine ⟨?_, rfl⟩
  intro t h
  constructor
  · intro hb
    unfold parse
    rw [show (String.mk t).data = t from rfl, h]
    simp [pairUp, hb, processItems]
  · intro hb
    unfold parse
    rw [show (String.mk t).data = t from rfl, h]
    simp [pairUp, hb]

/-- Witness for C6: the blank one-fragment text `" "` parses to zero
entries. -/
theorem C6_witness :
    splitText (" ").data = [(" ").data] ∧ isBlank (" ").data = true ∧
    parse (String.mk (" ").data) = .ok [] :=
  ⟨rfl, rfl, (C6_no_delimiter_behavior.1 (" ").data rfl).1 rfl⟩

/-- C7: when the fragment list has odd length, the pairing loop appends
one extra metadata-only item with empty content if the final unpaired
fragment is non-blank, and drops it if blank.  The concrete conjuncts run
the full pipeline: `"... ---\nday: 4"` gains a second entry with empty
content, `"... ---\n"` (blank trailing fragment) does not. -/
theorem C7_odd_fragment_handling :
    (∀ (bs : List (List Char)) (m : List Char), (bs ++ [m]).length % 2 = 1 →
      pairUp (bs ++ [m]) = pairUp bs ++ (if isBlank m then [] else [(m, [])])) ∧
    parse "---\nyear: 2001\nmonth: 2\nday: 3\n---\nBody\n---\nday: 4" =
      .ok [([("date", .date ⟨2001, 2, 3⟩)], "Body\n"),
           ([("date", .date ⟨2001, 2, 4⟩)], "")] ∧
    parse "---\nyear: 2001\nmonth: 2\nday: 3\n---\nBody\n---\n" =
      .ok [([("date", .date ⟨2001, 2, 3⟩)], "Body\n")] := by
  refine ⟨?_, rfl, rfl⟩
  intro bs
  induction bs using pairUp.induct with
  | case1 a b rest ih =>
    intro m hodd
    have hodd' : (rest ++ [m]).length % 2 = 1 := by
      simp only [List.length_append, List.length_cons] at hodd ⊢
      omega
    simp only [List.cons_append, pairUp, List.append_eq]
    rw [ih m hodd']
  | case2 a h =>
    intro m hodd
    simp at hodd
  | case3 a h =>
    intro m hodd
    simp at hodd
  | case4 =>
    intro m hodd
    simp [pairUp]

/-- Witness for C7: a three-fragment list with a non-blank trailing
fragment gains the extra metadata-only item. -/
theorem C7_witness :
    ((("a: 1\n").data :: ("x\n").data :: [] ++ [("b: 2").data]).length % 2 = 1) ∧
    pairUp (("a: 1\n").data :: ("x\n").data :: [] ++ [("b: 2").data]) =
      pairUp (("a: 1\n").data :: ("x\n").data :: []) ++
        (if isBlank (("b: 2").data) then [] else [((("b: 2").data), [])]) :=
  ⟨by decide, C7_odd_fragment_handling.1 _ _ (by decide)⟩

/-- C8 counterexample: the first entry's `day` is the digitless string
`"xyz"`, but it also omits `year`, and the year check runs first: `parse`
fails with the year-required `MissingRequiredField` error, not the
`InvalidFieldFormat` day error the claim promises for that entry. -/
theorem C8_counterexample :
    parse "---\nday: xyz\n---\nBody\n" =
      .error (.parserError (.yearRequired 1)) ∧
    PyExn.parserError (.yearRequired 1) ≠
      .parserError (.invalidDayFormat 1 "xyz") := ⟨rfl, by decide⟩

/-- C8 (amended): for a successfully resolved entry, a `day` value
`"Mon 17"` resolves to day 17 (first maximal digit run) and a `month`
value `"July"` or `"Jul"` resolves to month 7; an entry whose `day` value
is a digitless string makes the parse fail with the invalid-day-format
error carrying that entry's 1-based ordinal, provided all preceding
entries resolved and the entry's year is resolvable (otherwise the year
check fails first). -/
theorem C8_textual_day_month :
    (∀ (i : Nat) (st : Option PyDate) (m : PyDict) (c : String)
        (out : PyDict × String) (d' : PyDate),
      resolveEntry i st m c = .ok (out, d') →
      dictGet m "day" = some (.str "Mon 17") → d'.day = 17) ∧
    (∀ (i : Nat) (st : Option PyDate) (m : PyDict) (c : String)
        (out : PyDict × String) (d' : PyDate),
      resolveEntry i st m c = .ok (out, d') →
      (dictGet m "month" = some (.str "July") ∨
        dictGet m "month" = some (.str "Jul")) → d'.month = 7) ∧
    (∀ (pre : List (List Char × List Char)) (outs : List (PyDict × String))
        (st : Option PyDate) (metaText content : List Char) (m : PyDict)
        (rest : List (List Char × List Char)) (s : String),
      processItems none 0 pre = .ok (outs, st) →
      yamlSafeLoad metaText = some (.map m) →
      dictGet m "day" = some (.str s) →
      findallDigits s.data = [] →
      (dictGet m "year" ≠ none ∨ st ≠ none) →
      processItems none 0 (pre ++ (metaText, content) :: rest) =
        .error (.parserError (.invalidDayFormat (pre.length + 1) s))) := by
  refine ⟨?_, ?_, ?_⟩
  · intro i st m c out d' h hday
    obtain ⟨year, day, month, hy, hd, hm, hdate, -⟩ := resolveEntry_ok_inv h
    rw [hday] at hd
    have h17 : processDay (i + 1) (some (.str "Mon 17")) = .ok (.int 17) := rfl
    rw [h17] at hd
    injection hd with hd
    rw [← hd] at hdate
    have := makeDate_ok_day hdate
    simp [toPyInt] at this
    omega
  · intro i st m c out d' h hmon
    obtain ⟨year, day, month, hy, hd, hm, hdate, -⟩ := resolveEntry_ok_inv h
    have hm7 : month = .int 7 := by
      cases hmon with
      | inl h1 =>
        rw [h1] at hm
        have h7 : processMonth (i + 1) (some (.str "July")) st = .ok (.int 7) := rfl
        rw [h7] at hm
        injection hm with hm
        exact hm.symm
      | inr h1 =>
        rw [h1] at hm
        have h7 : processMonth (i + 1) (some (.str "Jul")) st = .ok (.int 7) := rfl
        rw [h7] at hm
        injection hm with hm
        exact hm.symm
    rw [hm7] at hdate
    have := makeDate_ok_month hdate
    simp [toPyInt] at this
    omega
  · intro pre outs st metaText content m rest s hpre hload hday hnod hyr
    exact processItems_fail_at pre outs st metaText content m rest _ hpre hload
      (resolveEntry_dayNoDigits pre.length st m (String.mk content) s hday hnod hyr)

/-- Witness for C8: `day: Mon 17` with `month: July` resolves to
2017-07-17, and a first entry with `year` present but digitless `day`
fails with the invalid-day-format error for entry 1. -/
theorem C8_witness :
    resolveEntry 0 none
      [("year", .int 2017), ("month", .str "July"), ("day", .str "Mon 17")]
      "C." = .ok (([("date", .date ⟨2017, 7, 17⟩)], "C."), ⟨2017, 7, 17⟩) ∧
    (⟨2017, 7, 17⟩ : PyDate).day = 17 ∧
    (⟨2017, 7, 17⟩ : PyDate).month = 7 ∧
    processItems none 0
      ([] ++ [(("year: 2017\nmonth: 7\nday: xyz\n").data, ("B.\n").data)]) =
      .error (.parserError (.invalidDayFormat 1 "xyz")) := by
  refine ⟨rfl, ?_, ?_, ?_⟩
  · exact C8_textual_day_month.1 0 none
      [("year", .int 2017), ("month", .str "July"), ("day", .str "Mon 17")]
      "C." ([("date", .date ⟨2017, 7, 17⟩)], "C.") ⟨2017, 7, 17⟩ rfl rfl
  · exact C8_textual_day_month.2.1 0 none
      [("year", .int 2017), ("month", .str "July"), ("day", .str "Mon 17")]
      "C." ([("date", .date ⟨2017, 7, 17⟩)], "C.") ⟨2017, 7, 17⟩ rfl (Or.inl rfl)
  · exact C8_textual_day_month.2.2 [] [] none
      ("year: 2017\nmonth: 7\nday: xyz\n").data ("B.\n").data
      [("year", .int 2017), ("month", .int 7), ("day", .str "xyz")] [] "xyz"
      rfl rfl rfl rfl (Or.inl (by simp [dictGet]))

/-- C9 counterexample: `year: abc` makes `parse` fail with an uncaught
`TypeError` from `date("abc", 7, 19)` — not the `InvalidFieldFormat`
`ParserError` the claim promises: the `except ValueError` around the date
constructor does not catch `TypeError`, and no entry ordinal is carried. -/
theorem C9_counterexample :
    parse "---\nyear: abc\nmonth: 7\nday: 19\n---\nX\n" = .error .typeError ∧
    PyExn.typeError.isParserError = false := ⟨rfl, rfl⟩

/-- C9 (amended): a string `year` value is never coerced or validated —
it flows untouched into the `date(...)` constructor, so an entry with a
string year can never resolve successfully, and whenever its day and
month steps succeed the parse fails with an uncaught `TypeError` (not a
`ParserError`, and carrying no entry ordinal). -/
theorem C9_string_year_typeerror :
    (∀ (i : Nat) (st : Option PyDate) (m : PyDict) (c : String) (s : String)
        (r : (PyDict × String) × PyDate),
      dictGet m "year" = some (.str s) → resolveEntry i st m c ≠ .ok r) ∧
    (∀ (pre : List (List Char × List Char)) (outs : List (PyDict × String))
        (st : Option PyDate) (metaText content : List Char) (m : PyDict)
        (rest : List (List Char × List Char)) (s : String) (day month : Yaml),
      processItems none 0 pre = .ok (outs, st) →
      yamlSafeLoad metaText = some (.map m) →
      dictGet m "year" = some (.str s) →
      processDay (pre.length + 1) (dictGet m "day") = .ok day →
      processMonth (pre.length + 1) (dictGet m "month") st = .ok month →
      processItems none 0 (pre ++ (metaText, content) :: rest) =
        .error .typeError) ∧
    PyExn.typeError.isParserError = false := by
  refine ⟨?_, ?_, rfl⟩
  · intro i st m c s r hyear h
    obtain ⟨year, day, month, hy, hd, hm, hdate, -⟩ := resolveEntry_ok_inv h
    rw [hyear] at hy
    simp only [processYear] at hy
    injection hy with hy
    rw [← hy] at hdate
    have := makeDate_ok_year hdate
    simp [toPyInt] at this
  · intro pre outs st metaText content m rest s day month hpre hload hyear
      hday hmon
    apply processItems_fail_at pre outs st metaText content m rest _ hpre hload
    unfold resolveEntry
    rw [hyear]
    simp only [processYear]
    rw [hday]
    rw [hmon]
    simp [makeDate, toPyInt]

/-- Witness for C9: the concrete document of the counterexample, driven
through both universal parts. -/
theorem C9_witness :
    resolveEntry 0 none [("year", .str "abc")] "c" ≠
      .ok (([], ""), ⟨1, 1, 1⟩) ∧
    processItems none 0
      ([] ++ [(("year: abc\nmonth: 7\nday: 19\n").data, ("X\n").data)]) =
      .error .typeError := by
  refine ⟨?_, ?_⟩
  · exact C9_string_year_typeerror.1 0 none [("year", .str "abc")] "c" "abc"
      (([], ""), ⟨1, 1, 1⟩) rfl
  · exact C9_string_year_typeerror.2.1 [] [] none
      ("year: abc\nmonth: 7\nday: 19\n").data ("X\n").data
      [("year", .str "abc"), ("month", .int 7), ("day", .int 19)] []
      "abc" (.int 19) (.int 7) rfl rfl rfl rfl rfl

/-- Values on which the `.pop` key extraction works: a dict, or `None`
(which the code replaces by an empty dict before popping). -/
def Yaml.isDictLike : Yaml → Bool
  | .map _ => true
  | .null => true
  | _ => false

/-- If the first `pre.length` items resolve successfully and the next
item's metadata load fails with `e`, the whole loop fails with `e`. -/
theorem processItems_fail_load (pre : List (List Char × List Char))
    (outs : List (PyDict × String)) (st : Option PyDate)
    (metaText content : List Char) (rest : List (List Char × List Char))
    (e : PyExn) (hpre : processItems none 0 pre = .ok (outs, st))
    (hload : loadMeta pre.length metaText = .error e) :
    processItems none 0 (pre ++ (metaText, content) :: rest) = .error e := by
  rw [processItems_append, hpre]
  dsimp only
  simp only [Nat.zero_add, processItems]
  rw [hload]

/-- C10: a metadata block that decodes to a non-mapping, non-null value
makes the parse fail with an exception that is not a `ParserError` (it
escapes from the `.pop` key extraction) and carries no entry ordinal: a
sequence raises `TypeError`, a scalar raises `AttributeError`, as the
concrete conjuncts show. -/
theorem C10_nonmapping_metadata :
    (∀ (pre : List (List Char × List Char)) (outs : List (PyDict × String))
        (st : Option PyDate) (metaText content : List Char) (v : Yaml)
        (rest : List (List Char × List Char)),
      processItems none 0 pre = .ok (outs, st) →
      yamlSafeLoad metaText = some v →
      v.isDictLike = false →
      ∃ e, processItems none 0 (pre ++ (metaText, content) :: rest) =
          .error e ∧ e.isParserError = false) ∧
    parse "---\n- a\n- b\n---\nx\n" = .error .typeError ∧
    parse "---\nhello\n---\nx\n" = .error .attributeError := by
  refine ⟨?_, rfl, rfl⟩
  intro pre outs st metaText content v rest hpre hload hnd
  cases v with
  | map m => simp [Yaml.isDictLike] at hnd
  | null => simp [Yaml.isDictLike] at hnd
  | seq xs =>
    exact ⟨.typeError, processItems_fail_load pre outs st metaText content rest
      .typeError hpre (by simp [loadMeta, hload]), rfl⟩
  | str s =>
    exact ⟨.attributeError, processItems_fail_load pre outs st metaText content
      rest .attributeError hpre (by simp [loadMeta, hload]), rfl⟩
  | int n =>
    exact ⟨.attributeError, processItems_fail_load pre outs st metaText content
      rest .attributeError hpre (by simp [loadMeta, hload]), rfl⟩
  | bool b =>
    exact ⟨.attributeError, processItems_fail_load pre outs st metaText content
      rest .attributeError hpre (by simp [loadMeta, hload]), rfl⟩
  | date d =>
    exact ⟨.attributeError, processItems_fail_load pre outs st metaText content
      rest .attributeError hpre (by simp [loadMeta, hload]), rfl⟩

/-- Witness for C10: the sequence block `- a\n- b\n` as the only entry's
metadata fails with a non-`ParserError` exception. -/
theorem C10_witness :
    ∃ e, processItems none 0
        ([] ++ [(("- a\n- b\n").data, ("x\n").data)]) = .error e ∧
      e.isParserError = false :=
  C10_nonmapping_metadata.1 [] [] none ("- a\n- b\n").data ("x\n").data
    (.seq [.str "a", .str "b"]) [] rfl rfl rfl
